import Mathlib

/-!
# Verification of the chunked TTS conversion pipeline

A shallow embedding, in Lean 4, of the core of the `web-to-audiobook`
repository: the text segmenter (`TTSService.split_text`), the progress
tracker (`TTSService.update_progress`), audio reassembly
(`TTSService.concatenate_audio`), the per-chunk and whole-request
orchestration of `OpenAITTSService` / `LocalTTSService`, and the retrying
HTTP client (`HttpClient.request` in `app/services/http_client.py`, which
contains two successive class definitions of `HttpClient`; the second one
shadows the first, so both are embedded here under distinct names).

Python strings are embedded as `List Char`; byte payloads as `List Nat`;
`None`-able fields as `Option`; Python truthiness of `Optional[str]` and
`Optional[bytes]` fields is made explicit (`errTruthy`, `audioTruthy`:
`None` and empty values are falsy). The async orchestration is sequential
in the embedding: `asyncio.gather` returns results in task order, which is
the chunks' ordinal order, so the per-chunk outcomes are supplied by an
oracle `Nat → ChunkResult` indexed by chunk id and the orchestrator maps
over the chunk list. Float-valued configuration (retry delays, timeouts)
only controls sleeping and is not modelled.
-/

/-! ## Python string primitives -/

/-- The whitespace characters stripped by Python's `str.strip()` (ASCII
fragment; the source text of the claims only involves ASCII). -/
def pyWhitespace (c : Char) : Bool :=
  c == ' ' || c == '\t' || c == '\n' || c == '\r' ||
  c == Char.ofNat 11 || c == Char.ofNat 12

/-- Python's `str.strip()`: drop leading and trailing whitespace. -/
def strip (l : List Char) : List Char :=
  ((l.dropWhile pyWhitespace).reverse.dropWhile pyWhitespace).reverse

/-- Does the pattern `p` occur in `t` starting at index `i`? -/
def matchAt (t p : List Char) (i : Nat) : Bool :=
  (t.drop i).take p.length == p

/-- Python's `text.rfind(pat, s, e)`: the largest index `i` with
`s ≤ i`, `i + pat.length ≤ e` and `pat` occurring at `i`, or `-1` when
there is none. -/
def rfind (t p : List Char) (s e : Nat) : Int :=
  match ((List.range e).filter
      (fun i => decide (s ≤ i) && decide (i + p.length ≤ e) && matchAt t p i)).getLast? with
  | some i => (i : Int)
  | none => -1

/-! ## The text segmenter (`TTSService.split_text`) -/

/-- The `sentence_end` value: the max of the three sentence-terminator searches
(`base.py` lines 96-100). -/
def sentenceEnd (t : List Char) (pos e0 : Nat) : Int :=
  max (max (rfind t ['.', ' '] pos e0) (rfind t ['!', ' '] pos e0))
    (rfind t ['?', ' '] pos e0)

/-- The break-point priority chain of `base.py` lines 94-119, choosing the
adjusted `end_pos` within the window `[pos, e0)`: sentence terminator,
then paragraph break, then line break, then space, then hard cut at `e0`. -/
def breakEnd (t : List Char) (pos e0 : Nat) : Nat :=
  if (pos : Int) < sentenceEnd t pos e0 then (sentenceEnd t pos e0).toNat + 2
  else if (pos : Int) < rfind t ['\n', '\n'] pos e0 then
    (rfind t ['\n', '\n'] pos e0).toNat + 2
  else if (pos : Int) < rfind t ['\n'] pos e0 then
    (rfind t ['\n'] pos e0).toNat + 1
  else if (pos : Int) < rfind t [' '] pos e0 then
    (rfind t [' '] pos e0).toNat + 1
  else e0

/-- One iteration of `split_text`'s scanning loop: given the previous
boundary `pos`, the position `end_pos` after the break-point search of
`base.py` lines 91-119 (the search only runs when the window does not
already reach the end of the text). -/
def computeEnd (t : List Char) (chunk_size pos : Nat) : Nat :=
  if min (pos + chunk_size) t.length < t.length then
    breakEnd t pos (min (pos + chunk_size) t.length)
  else min (pos + chunk_size) t.length

/-- The `while current_pos < text_length` loop of `split_text`, with
explicit fuel. When `chunk_size ≥ 1` every iteration strictly advances
`pos` (proved below), so `t.length` fuel is enough to reproduce the
Python loop exactly. -/
def splitLoop (t : List Char) (chunk_size : Nat) : Nat → Nat → List (List Char)
  | 0, _ => []
  | fuel + 1, pos =>
    if pos < t.length then
      let e := computeEnd t chunk_size pos
      strip ((t.drop pos).take (e - pos)) :: splitLoop t chunk_size fuel e
    else []

/-- Embeds `TTSService.split_text` (`base.py` lines 70-125). -/
def split_text (t : List Char) (chunk_size : Nat) : List (List Char) :=
  if t.length ≤ chunk_size then [t]
  else splitLoop t chunk_size t.length 0


/-! ## TTS data model (`app/models/tts.py`) -/

/-- Embeds `TTSProvider`. -/
inductive TTSProvider
  | openai
  | local
deriving DecidableEq

/-- Embeds `TTSFormat`. -/
inductive TTSFormat
  | mp3
  | wav
  | ogg
  | flac
deriving DecidableEq

/-- Embeds `TTSConfig` (the fields the pipeline reads; the float-valued retry
delay and timeout only control sleeping and are not modelled). -/
structure TTSConfig where
  provider : TTSProvider
  output_format : TTSFormat
  chunk_size : Nat
  max_retries : Nat
deriving DecidableEq

/-- Embeds `TTSRequest`. -/
structure TTSRequest where
  text : List Char
  config : TTSConfig
deriving DecidableEq

/-- Embeds `TTSChunk`. -/
structure TTSChunk where
  id : Nat
  text : List Char
  audio_data : Option (List Nat) := none
  processed : Bool := false
  error : Option String := none
deriving DecidableEq

/-- Embeds `TTSProgress`. -/
structure TTSProgress where
  total_chunks : Nat
  processed_chunks : Nat := 0
  failed_chunks : Nat := 0
deriving DecidableEq

/-- Embeds `TTSResponse`. -/
structure TTSResponse where
  audio_data : Option (List Nat)
  format : TTSFormat
  chunks : List TTSChunk
  progress : TTSProgress
  error : Option String := none
  success : Bool
deriving DecidableEq

/-- Embeds `TTSError`. -/
structure TTSError where
  message : String
deriving DecidableEq

/-- Python truthiness of an `Optional[bytes]` value: `None` and `b""` are
falsy (`if chunk.audio_data:` and `c.processed and c.audio_data`). -/
def audioTruthy : Option (List Nat) → Bool
  | none => false
  | some a => !a.isEmpty

/-- Python truthiness of an `Optional[str]` value: `None` and `""` are
falsy (`if chunk.error:`, `if error:`). -/
def errTruthy : Option String → Bool
  | none => false
  | some s => !s.isEmpty

/-! ## Progress tracking and audio reassembly (`base.py`) -/

/-- Embeds `TTSService.create_progress_tracker` (`base.py` lines 167-177). -/
def create_progress_tracker (total_chunks : Nat) : TTSProgress :=
  { total_chunks := total_chunks }

/-- Embeds `TTSService.update_progress` (`base.py` lines 179-198). -/
def update_progress (progress : TTSProgress) (chunk : TTSChunk) : TTSProgress :=
  let p1 := if chunk.processed then
    { progress with processed_chunks := progress.processed_chunks + 1 } else progress
  if errTruthy chunk.error then
    { p1 with failed_chunks := p1.failed_chunks + 1 } else p1

/-- The success filter of `concatenate_audio`: `c.processed and c.audio_data`. -/
def successfulChunk (c : TTSChunk) : Bool :=
  c.processed && audioTruthy c.audio_data

/-- Embeds `TTSService.concatenate_audio` (`base.py` lines 127-165): returns
`(audio_data, error_message)`. The single-successful-chunk case returns
that chunk's payload directly; otherwise the payloads are written to one
buffer in the order the chunks appear in the input list. -/
def concatenate_audio (chunks : List TTSChunk) (_output_format : TTSFormat) :
    Option (List Nat) × Option String :=
  match chunks.filter successfulChunk with
  | [] => (none, some "No successful audio chunks to concatenate")
  | [c] => (c.audio_data, none)
  | successful => (some (successful.foldl
      (fun buf c => if audioTruthy c.audio_data then buf ++ c.audio_data.getD [] else buf) []),
      none)

/-! ## Per-chunk processing and orchestration
(`openai_tts.py` / `local_tts.py`) -/

/-- The outcome the environment hands a chunk's conversion attempt: a 200
response whose body is the audio bytes, or a failure. A failure covers
both the non-200 branch of `process_chunk` (which stores the message
extracted from the error body, defaulting to `"API error: N"`) and the
exception branch (which stores `str(e)`); both set only `chunk.error`. -/
inductive ChunkResult
  | success (audio : List Nat)
  | failure (msg : String)
deriving DecidableEq

/-- Embeds `process_chunk` (`openai_tts.py` lines 113-203, with `aiohttp`
available): empty-after-strip chunk text is a no-op success with no audio;
otherwise on 200 set `audio_data` and `processed`, on failure set `error`.
The per-chunk outcome is supplied by `oracle`, indexed by chunk id. -/
def process_chunk (oracle : Nat → ChunkResult) (chunk : TTSChunk) : TTSChunk :=
  if strip chunk.text = [] then { chunk with processed := true }
  else
    match oracle chunk.id with
    | .success audio => { chunk with audio_data := some audio, processed := true }
    | .failure msg => { chunk with error := some msg }

/-- Embeds `chunks = [TTSChunk(id=i, text=text) for i, text in enumerate(text_chunks)]`. -/
def makeChunks : Nat → List (List Char) → List TTSChunk
  | _, [] => []
  | i, t :: ts => { id := i, text := t } :: makeChunks (i + 1) ts

/-- Embeds `OpenAITTSService.convert_text_to_speech` (`openai_tts.py` lines
52-111): validate the provider, segment, process every chunk
(`asyncio.gather` returns results in task order, i.e. ordinal order),
fold the progress updates, reassemble, and build the response. -/
def convert_text_to_speech (oracle : Nat → ChunkResult) (request : TTSRequest) :
    TTSResponse ⊕ TTSError :=
  if request.config.provider = TTSProvider.openai then
    let text_chunks := split_text request.text request.config.chunk_size
    let chunks := makeChunks 0 text_chunks
    let progress0 := create_progress_tracker chunks.length
    let processed_chunks := chunks.map (process_chunk oracle)
    let progress := processed_chunks.foldl update_progress progress0
    let res := concatenate_audio processed_chunks request.config.output_format
    if errTruthy res.2 then
      Sum.inl { audio_data := none, format := request.config.output_format,
                chunks := processed_chunks, progress := progress,
                error := res.2, success := false }
    else
      Sum.inl { audio_data := res.1, format := request.config.output_format,
                chunks := processed_chunks, progress := progress,
                success := true }
  else
    Sum.inr { message := "Invalid provider" }


/-! ## The HTTP client (`app/services/http_client.py`)

The file defines class `HttpClient` twice; the second definition shadows
the first, so the second `request` (lines 134-213) is the one the program
runs. Both are embedded: `request` is the prevailing one, `requestV1` the
shadowed first one (lines 32-113). The network is an oracle mapping the
attempt index (the `retry_count` at which the attempt is made, starting
at 0) to its outcome. -/

/-- What one network attempt yields: a response with a status code, or a
transport-level error (`httpx.RequestError`). -/
inductive AttemptOutcome
  | resp (status : Nat)
  | netErr (msg : String)
deriving DecidableEq

/-- What `HttpClient.request` returns: the final response, or the final
exception; each carries the `retry_count` it resolved at (the prevailing
definition attaches it with `setattr`), so attempts consumed = it + 1. -/
inductive HttpResult
  | resp (status : Nat) (retry_count : Nat)
  | exc (msg : String) (retry_count : Nat)
deriving DecidableEq

/-- The recursion of the prevailing `request`, driven by the number of
retries still allowed (`max_retries - retry_count`), which the Python
code strictly decreases: retry exactly when (status ≥ 500 or a network
error) and `retry_count < max_retries`. -/
def requestGo (att : Nat → AttemptOutcome) : Nat → Nat → HttpResult
  | rc, 0 =>
    match att rc with
    | .resp s => .resp s rc
    | .netErr m => .exc m rc
  | rc, r + 1 =>
    match att rc with
    | .resp s => if 500 ≤ s then requestGo att (rc + 1) r else .resp s rc
    | .netErr _ => requestGo att (rc + 1) r

/-- The prevailing `HttpClient.request` (`http_client.py` lines 134-213),
entered at `retry_count = rc` (the route code enters at 0). It has no
retryable-status-codes parameter: it retries on `status_code >= 500`
(and on `httpx.RequestError`) while `retry_count < max_retries`, and
returns any other response — including a 429 — immediately. -/
def request (max_retries : Nat) (att : Nat → AttemptOutcome) (rc : Nat) : HttpResult :=
  requestGo att rc (max_retries - rc)

/-- The loop of the first, shadowed `HttpClient.request` (`http_client.py`
lines 32-113): retry while the status is in `retry_codes` (or the attempt
raised) and, after incrementing `retry_count`, `retry_count ≤ max_retries`
still holds. -/
def requestV1Go (codes : List Nat) (att : Nat → AttemptOutcome) : Nat → Nat → HttpResult
  | rc, remaining =>
    match att rc, remaining with
    | .resp s, r + 1 =>
      if s ∈ codes then requestV1Go codes att (rc + 1) r else .resp s rc
    | .resp s, 0 => if s ∈ codes then .resp s (rc + 1) else .resp s rc
    | .netErr _, r + 1 => requestV1Go codes att (rc + 1) r
    | .netErr m, 0 => .exc m (rc + 1)

/-- The first, shadowed `HttpClient.request`: `retry_codes` defaults to
`[429, 500, 502, 503, 504]` when `None` is passed. -/
def requestV1 (max_retries : Nat) (att : Nat → AttemptOutcome)
    (retry_codes : Option (List Nat)) : HttpResult :=
  requestV1Go (retry_codes.getD [429, 500, 502, 503, 504]) att 0 max_retries


/-! ## Specification-side helpers

The following definitions are not translations of repository code; they
are the vocabulary in which the claims are stated (whitespace
equivalence, ordinal order, progress snapshots, response projections). -/

/-- A non-whitespace character (the characters the segmenter must
neither lose, duplicate nor reorder). -/
def nonWS (c : Char) : Bool := !pyWhitespace c

/-- Concatenation of a chunk list back into one character sequence. -/
def joinChunks (l : List (List Char)) : List Char := l.foldr (· ++ ·) []

/-- Insert a chunk into a list sorted by ascending ordinal id. -/
def insertById (c : TTSChunk) : List TTSChunk → List TTSChunk
  | [] => [c]
  | d :: ds => if c.id ≤ d.id then c :: d :: ds else d :: insertById c ds

/-- Sort a chunk list by ascending ordinal id (insertion sort). -/
def sortById : List TTSChunk → List TTSChunk
  | [] => []
  | c :: cs => insertById c (sortById cs)

/-- The concatenation of the chunks' audio payloads, in list order. -/
def joinAudio (l : List TTSChunk) : List Nat :=
  l.foldr (fun c acc => c.audio_data.getD [] ++ acc) []

/-- The processed chunk list a conversion of the given segments produces. -/
def processedChunks (oracle : Nat → ChunkResult) (texts : List (List Char)) :
    List TTSChunk :=
  (makeChunks 0 texts).map (process_chunk oracle)

/-- The progress snapshot after the first `k` chunk completions of a
conversion of the given segments (the fold of `update_progress` that
`convert_text_to_speech` performs, cut off after `k` chunks). -/
def progressAt (oracle : Nat → ChunkResult) (texts : List (List Char)) (k : Nat) :
    TTSProgress :=
  ((processedChunks oracle texts).take k).foldl update_progress
    (create_progress_tracker (makeChunks 0 texts).length)

/-- The `success` flag of a conversion outcome, when it is a response. -/
def respSuccess : TTSResponse ⊕ TTSError → Option Bool
  | .inl r => some r.success
  | .inr _ => none

/-- The final audio payload of a conversion outcome, when it is a response. -/
def respAudio : TTSResponse ⊕ TTSError → Option (List Nat)
  | .inl r => r.audio_data
  | .inr _ => none

/-- The top-level error message of a conversion outcome. -/
def respErrorMsg : TTSResponse ⊕ TTSError → Option String
  | .inl r => r.error
  | .inr e => some e.message

/-- The progress snapshot of a conversion outcome, when it is a response. -/
def respProgress : TTSResponse ⊕ TTSError → Option TTSProgress
  | .inl r => some r.progress
  | .inr _ => none

/-- The chunk list of a conversion outcome, when it is a response. -/
def respChunks : TTSResponse ⊕ TTSError → List TTSChunk
  | .inl r => r.chunks
  | .inr _ => []

/-- A concrete request whose text segments into the three chunks
`"aaaa"`, `"bbbb"`, `"cccc"` under `chunk_size = 4`. -/
def exRequest : TTSRequest :=
  { text := "aaaabbbbcccc".toList,
    config := { provider := .openai, output_format := .mp3, chunk_size := 4,
                max_retries := 3 } }

/-- A concrete outcome oracle under which chunks 0 and 2 succeed and
chunk 1 fails. -/
def exOracle : Nat → ChunkResult := fun i =>
  if i = 0 then .success [1] else if i = 2 then .success [3]
  else .failure "API error: 500"

/-- A concrete outcome oracle under which every chunk fails. -/
def exFailOracle : Nat → ChunkResult := fun _ => .failure "boom"

/-! ## Lemmas about the segmenter's break-point search -/

/-- The last element of a list is a member of it. -/
theorem memOfGetLast {a : Nat} : ∀ {l : List Nat}, l.getLast? = some a → a ∈ l
  | [], h => by simp [List.getLast?] at h
  | [x], h => by
      simp [List.getLast?] at h
      simp [h]
  | x :: y :: ys, h => by
      rw [List.getLast?_cons_cons] at h
      exact List.mem_cons_of_mem _ (memOfGetLast h)

/-- A found `rfind` index lies in the search window and leaves room for
the pattern before the window's end. -/
theorem rfind_lt {t p : List Char} {s e pos : Nat}
    (h : (pos : Int) < rfind t p s e) :
    pos < (rfind t p s e).toNat ∧ s ≤ (rfind t p s e).toNat ∧
      (rfind t p s e).toNat + p.length ≤ e := by
  unfold rfind at h ⊢
  split at h
  case _ i heq =>
    have hmem := memOfGetLast heq
    rw [List.mem_filter] at hmem
    obtain ⟨-, hpred⟩ := hmem
    simp only [Bool.and_eq_true, decide_eq_true_eq] at hpred
    obtain ⟨⟨hs, he⟩, -⟩ := hpred
    omega
  case _ heq => omega

/-- A found sentence terminator fits inside the search window. -/
theorem sentenceEnd_lt {t : List Char} {pos e0 : Nat}
    (h : (pos : Int) < sentenceEnd t pos e0) :
    pos < (sentenceEnd t pos e0).toNat ∧ (sentenceEnd t pos e0).toNat + 2 ≤ e0 := by
  unfold sentenceEnd at h ⊢
  rcases max_choice (max (rfind t ['.', ' '] pos e0) (rfind t ['!', ' '] pos e0))
      (rfind t ['?', ' '] pos e0) with hm | hm
  · rw [hm] at h ⊢
    rcases max_choice (rfind t ['.', ' '] pos e0) (rfind t ['!', ' '] pos e0) with hm2 | hm2
    · rw [hm2] at h ⊢
      obtain ⟨ha, -, hb⟩ := rfind_lt h
      exact ⟨ha, by simpa using hb⟩
    · rw [hm2] at h ⊢
      obtain ⟨ha, -, hb⟩ := rfind_lt h
      exact ⟨ha, by simpa using hb⟩
  · rw [hm] at h ⊢
    obtain ⟨ha, -, hb⟩ := rfind_lt h
    exact ⟨ha, by simpa using hb⟩

/-- The chosen break point never exceeds the window's end. -/
theorem breakEnd_le (t : List Char) (pos e0 : Nat) : breakEnd t pos e0 ≤ e0 := by
  unfold breakEnd
  split_ifs with h1 h2 h3 h4
  · exact (sentenceEnd_lt h1).2
  · have := rfind_lt h2
    simp only [List.length_cons, List.length_nil] at this
    omega
  · have := rfind_lt h3
    simp only [List.length_cons, List.length_nil] at this
    omega
  · have := rfind_lt h4
    simp only [List.length_cons, List.length_nil] at this
    omega
  · exact le_refl e0

/-- The chosen break point lies strictly beyond the previous boundary. -/
theorem breakEnd_gt (t : List Char) (pos e0 : Nat) (h : pos < e0) :
    pos < breakEnd t pos e0 := by
  unfold breakEnd
  split_ifs with h1 h2 h3 h4
  · have := (sentenceEnd_lt h1).1
    omega
  · have := (rfind_lt h2).1
    omega
  · have := (rfind_lt h3).1
    omega
  · have := (rfind_lt h4).1
    omega
  · exact h

/-- The chosen `end_pos` never exceeds the text's length. -/
theorem computeEnd_le_len (t : List Char) (cs pos : Nat) :
    computeEnd t cs pos ≤ t.length := by
  unfold computeEnd
  split_ifs with h
  · exact le_trans (breakEnd_le t pos _) (min_le_right _ _)
  · exact min_le_right _ _

/-- A chunk's slice is at most `chunk_size` characters wide. -/
theorem computeEnd_le_add (t : List Char) (cs pos : Nat) :
    computeEnd t cs pos ≤ pos + cs := by
  unfold computeEnd
  split_ifs with h
  · exact le_trans (breakEnd_le t pos _) (min_le_left _ _)
  · exact min_le_left _ _

/-- With a positive `chunk_size`, every loop iteration strictly advances
the boundary. -/
theorem computeEnd_gt (t : List Char) (cs pos : Nat) (hpos : pos < t.length)
    (hcs : 1 ≤ cs) : pos < computeEnd t cs pos := by
  have he0 : pos < min (pos + cs) t.length := by omega
  unfold computeEnd
  split_ifs with h
  · exact breakEnd_gt t pos _ he0
  · exact he0

/-! ## Lemmas about `strip` and the scanning loop -/

/-- Stripping never lengthens a string. -/
theorem strip_length_le (l : List Char) : (strip l).length ≤ l.length := by
  unfold strip
  rw [List.length_reverse]
  calc ((l.dropWhile pyWhitespace).reverse.dropWhile pyWhitespace).length
      ≤ (l.dropWhile pyWhitespace).reverse.length :=
        (List.dropWhile_sublist _).length_le
    _ = (l.dropWhile pyWhitespace).length := List.length_reverse _
    _ ≤ l.length := (List.dropWhile_sublist _).length_le

/-- Dropping leading whitespace does not change the non-whitespace
characters. -/
theorem filter_nonWS_dropWhile (l : List Char) :
    (l.dropWhile pyWhitespace).filter nonWS = l.filter nonWS := by
  induction l with
  | nil => rfl
  | cons a l ih =>
    rw [List.dropWhile_cons]
    by_cases ha : pyWhitespace a = true
    · have hna : nonWS a = false := by simp [nonWS, ha]
      rw [if_pos ha, ih, List.filter_cons, hna]
      simp
    · rw [if_neg ha]

/-- Stripping does not change the non-whitespace characters. -/
theorem filter_nonWS_strip (l : List Char) :
    (strip l).filter nonWS = l.filter nonWS := by
  unfold strip
  rw [List.filter_reverse, filter_nonWS_dropWhile, List.filter_reverse,
    List.reverse_reverse, filter_nonWS_dropWhile]

/-- Every chunk the scanning loop emits is at most `chunk_size` long. -/
theorem splitLoop_chunk_le (t : List Char) (cs : Nat) :
    ∀ fuel pos c, c ∈ splitLoop t cs fuel pos → c.length ≤ cs := by
  intro fuel
  induction fuel with
  | zero => intro pos c hc; simp [splitLoop] at hc
  | succ fuel ih =>
    intro pos c hc
    rw [splitLoop] at hc
    by_cases hp : pos < t.length
    · rw [if_pos hp] at hc
      rcases List.mem_cons.mp hc with hc | hc
      · subst hc
        calc (strip ((t.drop pos).take (computeEnd t cs pos - pos))).length
            ≤ ((t.drop pos).take (computeEnd t cs pos - pos)).length :=
              strip_length_le _
          _ ≤ computeEnd t cs pos - pos := by
              rw [List.length_take]
              exact min_le_left _ _
          _ ≤ cs := by
              have := computeEnd_le_add t cs pos
              omega
      · exact ih _ c hc
    · rw [if_neg hp] at hc
      simp at hc

/-- The scanning loop's chunks, concatenated, preserve every
non-whitespace character of the unscanned remainder of the text, in
order. -/
theorem splitLoop_join_filter (t : List Char) (cs : Nat) (hcs : 1 ≤ cs) :
    ∀ fuel pos, t.length ≤ pos + fuel →
      (joinChunks (splitLoop t cs fuel pos)).filter nonWS = (t.drop pos).filter nonWS := by
  intro fuel
  induction fuel with
  | zero =>
    intro pos h
    rw [List.drop_eq_nil_of_le (by omega)]
    rfl
  | succ fuel ih =>
    intro pos h
    rw [splitLoop]
    by_cases hp : pos < t.length
    · rw [if_pos hp]
      have hgt := computeEnd_gt t cs pos hp hcs
      have hlen := computeEnd_le_len t cs pos
      have hslice : (t.drop pos).take (computeEnd t cs pos - pos) ++
          t.drop (computeEnd t cs pos) = t.drop pos := by
        conv_rhs => rw [← List.take_append_drop (computeEnd t cs pos - pos) (t.drop pos)]
        congr 1
        rw [List.drop_drop]
        congr 1
        omega
      have hrest : (joinChunks (splitLoop t cs fuel (computeEnd t cs pos))).filter nonWS =
          (t.drop (computeEnd t cs pos)).filter nonWS := ih _ (by omega)
      show ((strip ((t.drop pos).take (computeEnd t cs pos - pos)) ++
          joinChunks (splitLoop t cs fuel (computeEnd t cs pos)))).filter nonWS =
        (t.drop pos).filter nonWS
      rw [List.filter_append, filter_nonWS_strip, hrest, ← List.filter_append, hslice]
    · rw [if_neg hp, List.drop_eq_nil_of_le (by omega)]
      rfl

/-- The scanning loop's result does not depend on the fuel, once the fuel
covers the unscanned remainder (and the `chunk_size` is positive, so that
every iteration advances). -/
theorem splitLoop_fuel_stable (t : List Char) (cs : Nat) (hcs : 1 ≤ cs) :
    ∀ fuel1 fuel2 pos, t.length ≤ pos + fuel1 → t.length ≤ pos + fuel2 →
      splitLoop t cs fuel1 pos = splitLoop t cs fuel2 pos := by
  intro fuel1
  induction fuel1 with
  | zero =>
    intro fuel2 pos h1 h2
    cases fuel2 with
    | zero => rfl
    | succ f2 =>
      rw [splitLoop, splitLoop, if_neg (by omega)]
  | succ f1 ih =>
    intro fuel2 pos h1 h2
    cases fuel2 with
    | zero =>
      rw [splitLoop, splitLoop, if_neg (by omega)]
    | succ f2 =>
      rw [splitLoop, splitLoop]
      by_cases hp : pos < t.length
      · rw [if_pos hp, if_pos hp]
        have hgt := computeEnd_gt t cs pos hp hcs
        show strip ((t.drop pos).take (computeEnd t cs pos - pos)) ::
            splitLoop t cs f1 (computeEnd t cs pos) =
          strip ((t.drop pos).take (computeEnd t cs pos - pos)) ::
            splitLoop t cs f2 (computeEnd t cs pos)
        rw [ih f2 (computeEnd t cs pos) (by omega) (by omega)]
      · rw [if_neg hp, if_neg hp]

/-! ## Lemmas about chunk creation, processing and reassembly -/

/-- Processing never changes a chunk's ordinal id. -/
theorem process_chunk_id (oracle : Nat → ChunkResult) (c : TTSChunk) :
    (process_chunk oracle c).id = c.id := by
  unfold process_chunk
  split
  · rfl
  · split <;> rfl

/-- Chunks created from position `i` onwards have ids at least `i`. -/
theorem makeChunks_mem_ge : ∀ (i : Nat) (ts : List (List Char)) (c : TTSChunk),
    c ∈ makeChunks i ts → i ≤ c.id
  | _, [], _, hc => by simp [makeChunks] at hc
  | i, t :: ts, c, hc => by
    rw [makeChunks] at hc
    rcases List.mem_cons.mp hc with hc | hc
    · subst hc; exact le_refl i
    · exact le_trans (Nat.le_succ i) (makeChunks_mem_ge (i + 1) ts c hc)

/-- The created chunk list carries strictly increasing ordinal ids. -/
theorem makeChunks_pairwise : ∀ (i : Nat) (ts : List (List Char)),
    List.Pairwise (fun a b : TTSChunk => a.id < b.id) (makeChunks i ts)
  | _, [] => List.Pairwise.nil
  | i, t :: ts => by
    rw [makeChunks]
    refine List.Pairwise.cons ?_ (makeChunks_pairwise (i + 1) ts)
    intro c hc
    exact lt_of_lt_of_le (Nat.lt_succ_self i) (makeChunks_mem_ge (i + 1) ts c hc)

/-- Freshly created chunks are unprocessed and carry no error. -/
theorem makeChunks_fresh : ∀ (i : Nat) (ts : List (List Char)) (c : TTSChunk),
    c ∈ makeChunks i ts → c.processed = false ∧ c.error = none
  | _, [], _, hc => by simp [makeChunks] at hc
  | i, t :: ts, c, hc => by
    rw [makeChunks] at hc
    rcases List.mem_cons.mp hc with hc | hc
    · subst hc; exact ⟨rfl, rfl⟩
    · exact makeChunks_fresh (i + 1) ts c hc

/-- One chunk is created per segment. -/
theorem makeChunks_length : ∀ (i : Nat) (ts : List (List Char)),
    (makeChunks i ts).length = ts.length
  | _, [] => rfl
  | i, t :: ts => by rw [makeChunks, List.length_cons, makeChunks_length (i + 1) ts]; rfl

/-- Inserting below the head of a list leaves it in place. -/
theorem insertById_cons_of_le (c : TTSChunk) :
    ∀ (l : List TTSChunk), (∀ d ∈ l, c.id ≤ d.id) → insertById c l = c :: l
  | [], _ => rfl
  | d :: ds, h => by
    rw [insertById, if_pos (h d (List.mem_cons_self d ds))]

/-- Sorting a list already in ascending ordinal order is the identity. -/
theorem sortById_eq_self : ∀ (l : List TTSChunk),
    List.Pairwise (fun a b : TTSChunk => a.id < b.id) l → sortById l = l
  | [], _ => rfl
  | c :: cs, h => by
    rw [sortById, sortById_eq_self cs h.of_cons]
    exact insertById_cons_of_le c cs (fun d hd => le_of_lt (List.rel_of_pairwise_cons h hd))

/-- Writing truthy audio payloads into the buffer left-to-right is plain
concatenation. -/
theorem foldl_buffer_eq (l : List TTSChunk)
    (hl : ∀ c ∈ l, audioTruthy c.audio_data = true) : ∀ acc : List Nat,
    l.foldl (fun buf c => if audioTruthy c.audio_data then buf ++ c.audio_data.getD []
      else buf) acc = acc ++ joinAudio l := by
  induction l with
  | nil => intro acc; simp [joinAudio]
  | cons c m ih =>
    intro acc
    rw [List.foldl_cons, if_pos (hl c (List.mem_cons_self c m))]
    rw [ih (fun x hx => hl x (List.mem_cons_of_mem c hx))]
    show (acc ++ c.audio_data.getD []) ++ joinAudio m =
      acc ++ (c.audio_data.getD [] ++ joinAudio m)
    rw [List.append_assoc]

/-- The audio component `concatenate_audio` returns: `none` when no chunk
succeeded, else the successful chunks' payloads joined in input order. -/
theorem concatenate_audio_fst (l : List TTSChunk) (fmt : TTSFormat) :
    (concatenate_audio l fmt).1 = if (l.filter successfulChunk).isEmpty then none
      else some (joinAudio (l.filter successfulChunk)) := by
  have hall : ∀ c ∈ l.filter successfulChunk, audioTruthy c.audio_data = true := by
    intro c hc
    have := (List.mem_filter.mp hc).2
    unfold successfulChunk at this
    exact (Bool.and_eq_true _ _ |>.mp this).2
  unfold concatenate_audio
  rcases hf : l.filter successfulChunk with _ | ⟨c, _ | ⟨d, rest⟩⟩
  · simp
  · rw [hf] at hall
    have hc := hall c (List.mem_cons_self c [])
    unfold audioTruthy at hc
    rcases ha : c.audio_data with _ | a
    · rw [ha] at hc; simp at hc
    · rw [ha] at hc
      simp only [Bool.not_eq_true'] at hc
      simp [joinAudio, ha, List.isEmpty_iff]
  · rw [hf] at hall
    simp only [List.isEmpty_cons]
    rw [foldl_buffer_eq (c :: d :: rest) hall []]
    simp

/-! ## Lemmas about progress tracking -/

/-- The total is fixed at creation and never changes. -/
theorem update_progress_total (p : TTSProgress) (c : TTSChunk) :
    (update_progress p c).total_chunks = p.total_chunks := by
  simp only [update_progress]
  split_ifs <;> rfl

/-- Both counters are non-decreasing under an update. -/
theorem update_progress_mono (p : TTSProgress) (c : TTSChunk) :
    p.processed_chunks ≤ (update_progress p c).processed_chunks ∧
      p.failed_chunks ≤ (update_progress p c).failed_chunks := by
  simp only [update_progress]
  split_ifs <;> simp <;> omega

/-- An update increments each counter at most once. -/
theorem update_progress_le (p : TTSProgress) (c : TTSChunk) :
    (update_progress p c).processed_chunks ≤ p.processed_chunks + 1 ∧
      (update_progress p c).failed_chunks ≤ p.failed_chunks + 1 := by
  simp only [update_progress]
  split_ifs <;> simp <;> omega

/-- A chunk that is not simultaneously processed and errored bumps the
counters' sum by at most one. -/
theorem update_progress_sum (p : TTSProgress) (c : TTSChunk)
    (h : ¬(c.processed = true ∧ errTruthy c.error = true)) :
    (update_progress p c).processed_chunks + (update_progress p c).failed_chunks ≤
      p.processed_chunks + p.failed_chunks + 1 := by
  simp only [update_progress]
  split_ifs with h1 h2 h3
  · exact absurd ⟨h2, h1⟩ h
  · simp
    omega
  · simp
    omega
  · simp

/-- A chunk coming out of `process_chunk` from a fresh chunk is never both
processed and carrying a truthy error. -/
theorem process_chunk_no_conflict (oracle : Nat → ChunkResult) (c : TTSChunk)
    (hproc : c.processed = false) (herr : c.error = none) :
    ¬((process_chunk oracle c).processed = true ∧
      errTruthy (process_chunk oracle c).error = true) := by
  unfold process_chunk
  split
  · simp [herr, errTruthy]
  · split
    · simp [herr, errTruthy]
    · simp [hproc]

/-- Folding updates never changes the total. -/
theorem foldl_update_total : ∀ (l : List TTSChunk) (p : TTSProgress),
    (l.foldl update_progress p).total_chunks = p.total_chunks
  | [], _ => rfl
  | c :: l, p => by
    rw [List.foldl_cons, foldl_update_total l _, update_progress_total]

/-- Folding updates over conflict-free chunks bounds the counters' sum by
the number of chunks folded. -/
theorem foldl_update_sum : ∀ (l : List TTSChunk) (p : TTSProgress),
    (∀ c ∈ l, ¬(c.processed = true ∧ errTruthy c.error = true)) →
    (l.foldl update_progress p).processed_chunks + (l.foldl update_progress p).failed_chunks ≤
      p.processed_chunks + p.failed_chunks + l.length
  | [], _, _ => by simp
  | c :: l, p, hl => by
    rw [List.foldl_cons]
    have h1 := foldl_update_sum l (update_progress p c)
      (fun x hx => hl x (List.mem_cons_of_mem c hx))
    have h2 := update_progress_sum p c (hl c (List.mem_cons_self c l))
    simp only [List.length_cons]
    omega

/-- Every chunk of a conversion's processed list comes from processing a
fresh created chunk, so it is conflict-free. -/
theorem processedChunks_no_conflict (oracle : Nat → ChunkResult)
    (texts : List (List Char)) :
    ∀ c ∈ processedChunks oracle texts,
      ¬(c.processed = true ∧ errTruthy c.error = true) := by
  intro c hc
  obtain ⟨d, hd, rfl⟩ := List.mem_map.mp hc
  obtain ⟨hp, he⟩ := makeChunks_fresh 0 texts d hd
  exact process_chunk_no_conflict oracle d hp he

/-! ## Claim theorems: the text segmenter -/

/-- C6 (counterexample): the claim's exception clause is false — an
undividable atom longer than `maxChunkSize` is NOT emitted verbatim; it
is hard-cut. `"aaaa"` has no break point, yet `split_text "aaaa" 2`
returns `["aa", "aa"]`, not `["aaaa"]`. -/
theorem split_text_atom_counterexample :
    split_text "aaaa".toList 2 = ["aa".toList, "aa".toList] ∧
      split_text "aaaa".toList 2 ≠ ["aaaa".toList] :=
  ⟨by decide, by decide⟩

/-- C6 (amended): for every text and positive `maxChunkSize`, every
element of `split_text`'s output has length at most `maxChunkSize`, with
no exception: an atom with no break point is hard-cut at `maxChunkSize`,
never emitted verbatim. -/
theorem split_text_chunk_length_le (t : List Char) (cs : Nat) (_hcs : 1 ≤ cs) :
    ∀ c ∈ split_text t cs, c.length ≤ cs := by
  unfold split_text
  split_ifs with h
  · intro c hc
    rw [List.mem_singleton] at hc
    subst hc
    exact h
  · exact fun c hc => splitLoop_chunk_le t cs t.length 0 c hc

/-- C6 witness: the amended bound, evaluated at a concrete chunk of a
concrete split. -/
theorem split_text_chunk_length_le_witness :
    1 ≤ 2 ∧ ("aa".toList).length ≤ 2 :=
  ⟨by decide, split_text_chunk_length_le "aaaa".toList 2 (by decide) "aa".toList (by decide)⟩

/-- C7: for every text and positive `maxChunkSize`, concatenating
`split_text`'s chunks preserves the text's non-whitespace characters
exactly, in order — nothing is lost, duplicated or reordered. -/
theorem split_text_whitespace_equivalent (t : List Char) (cs : Nat) (hcs : 1 ≤ cs) :
    (joinChunks (split_text t cs)).filter nonWS = t.filter nonWS := by
  unfold split_text
  split_ifs with h
  · show (t ++ []).filter nonWS = t.filter nonWS
    rw [List.append_nil]
  · have hloop := splitLoop_join_filter t cs hcs t.length 0 (by omega)
    rw [hloop, List.drop_zero]

/-- C7 witness: whitespace equivalence, evaluated on a concrete text. -/
theorem split_text_whitespace_equivalent_witness :
    1 ≤ 3 ∧ (joinChunks (split_text "ab. cd ef".toList 3)).filter nonWS =
      ("ab. cd ef".toList).filter nonWS :=
  ⟨by decide, split_text_whitespace_equivalent "ab. cd ef".toList 3 (by decide)⟩

/-- C10: for `maxChunkSize ≥ 1` the scan terminates: every loop
iteration strictly advances the boundary, so the loop's result is
already stable at `t.length` fuel — more fuel never changes it. -/
theorem split_text_terminates (t : List Char) (cs : Nat) (hcs : 1 ≤ cs) :
    (∀ pos, pos < t.length → pos < computeEnd t cs pos) ∧
      ∀ fuel, t.length ≤ fuel → splitLoop t cs fuel 0 = splitLoop t cs t.length 0 := by
  refine ⟨fun pos hp => computeEnd_gt t cs pos hp hcs, fun fuel hf => ?_⟩
  exact splitLoop_fuel_stable t cs hcs fuel t.length 0 (by omega) (by omega)

/-- C10 witness: strict advance and fuel stability, on a concrete text. -/
theorem split_text_terminates_witness :
    0 < computeEnd "aaaa".toList 2 0 ∧
      splitLoop "aaaa".toList 2 7 0 = splitLoop "aaaa".toList 2 ("aaaa".toList).length 0 :=
  ⟨(split_text_terminates "aaaa".toList 2 (by decide)).1 0 (by decide),
   (split_text_terminates "aaaa".toList 2 (by decide)).2 7 (by decide)⟩

/-! ## Claim theorems: the HTTP client -/

/-- C2 (counterexample): in the prevailing `HttpClient.request`
(`max_retries = 3`, its constructor default), a 429 response is returned
immediately at `retry_count = 0` — no retry happens even though attempts
remain, because the prevailing definition retries only on statuses
≥ 500 and has no retryable-status-codes parameter. -/
theorem request_429_counterexample :
    request 3 (fun _ => .resp 429) 0 = HttpResult.resp 429 0 := by decide

/-- C2 (amended): only the shadowed first `HttpClient.request` defaults
its `retry_codes` to `[429, 500, 502, 503, 504]`; the prevailing second
definition has no such parameter — it returns any response with status
< 500 (including 429) immediately, and retries exactly on status ≥ 500
while attempts remain. -/
theorem requestGo_zero (att : Nat → AttemptOutcome) (rc : Nat) :
    requestGo att rc 0 = match att rc with
      | .resp s => .resp s rc
      | .netErr m => .exc m rc := by
  rw [requestGo]

theorem requestGo_succ (att : Nat → AttemptOutcome) (rc r : Nat) :
    requestGo att rc (r + 1) = match att rc with
      | .resp s => if 500 ≤ s then requestGo att (rc + 1) r else .resp s rc
      | .netErr _ => requestGo att (rc + 1) r := by
  rw [requestGo]

theorem request_retry_statuses :
    (∀ (mr : Nat) (att : Nat → AttemptOutcome),
      requestV1 mr att none = requestV1 mr att (some [429, 500, 502, 503, 504])) ∧
    (∀ (mr : Nat) (att : Nat → AttemptOutcome) (rc s : Nat),
      att rc = .resp s → s < 500 → request mr att rc = .resp s rc) ∧
    (∀ (mr : Nat) (att : Nat → AttemptOutcome) (rc s : Nat),
      att rc = .resp s → 500 ≤ s → rc < mr →
        request mr att rc = request mr att (rc + 1)) := by
  refine ⟨fun mr att => rfl, fun mr att rc s hatt hs => ?_, fun mr att rc s hatt hs hrc => ?_⟩
  · unfold request
    cases hmr : mr - rc with
    | zero => rw [requestGo_zero, hatt]
    | succ r =>
      rw [requestGo_succ, hatt]
      show (if 500 ≤ s then requestGo att (rc + 1) r else .resp s rc) = .resp s rc
      rw [if_neg (by omega)]
  · unfold request
    cases hmr : mr - rc with
    | zero => omega
    | succ r =>
      have hr : mr - (rc + 1) = r := by omega
      rw [hr, requestGo_succ, hatt]
      show (if 500 ≤ s then requestGo att (rc + 1) r else .resp s rc) =
        requestGo att (rc + 1) r
      rw [if_pos hs]

/-- C2 witness: the amended facts at concrete inputs. -/
theorem request_retry_statuses_witness :
    requestV1 3 (fun _ => .resp 429) none =
      requestV1 3 (fun _ => .resp 429) (some [429, 500, 502, 503, 504]) ∧
    request 3 (fun _ => .resp 404) 0 = .resp 404 0 ∧
    request 3 (fun _ => .resp 503) 0 = request 3 (fun _ => .resp 503) 1 :=
  ⟨request_retry_statuses.1 3 (fun _ => .resp 429),
   request_retry_statuses.2.1 3 (fun _ => .resp 404) 0 404 rfl (by decide),
   request_retry_statuses.2.2 3 (fun _ => .resp 503) 0 503 rfl (by decide) (by decide)⟩

/-- C3 (counterexample): with `max_retries = 2` and every attempt
returning 500, `request` does make exactly 3 attempts (`retry_count`
reaches 2), but it returns the plain final response — the `.resp`
constructor with status 500 — not an error value. -/
theorem request_all_500_counterexample :
    request 2 (fun _ => .resp 500) 0 = HttpResult.resp 500 2 := by decide

/-- Every attempt yielding 500 drives `requestGo` through all its
remaining retries and returns the last 500 response. -/
theorem requestGo_all_500 (att : Nat → AttemptOutcome) (h : ∀ i, att i = .resp 500) :
    ∀ (remaining rc : Nat), requestGo att rc remaining = .resp 500 (rc + remaining) := by
  intro remaining
  induction remaining with
  | zero =>
    intro rc
    rw [requestGo_zero, h rc]
    rfl
  | succ r ih =>
    intro rc
    rw [requestGo_succ, h rc]
    show (if 500 ≤ 500 then requestGo att (rc + 1) r else .resp 500 rc) =
      .resp 500 (rc + (r + 1))
    rw [if_pos (le_refl 500)]
    rw [ih (rc + 1)]
    congr 1
    omega

/-- C3 (amended): if every attempt returns status 500 and
`max_retries = mr`, `request` makes exactly `mr + 1` attempts and
returns the final 500 response itself (a response value, not an error
value). -/
theorem request_all_500_returns_response (mr : Nat) (att : Nat → AttemptOutcome)
    (h : ∀ i, att i = .resp 500) : request mr att 0 = .resp 500 mr := by
  unfold request
  rw [requestGo_all_500 att h (mr - 0) 0]
  congr 1
  omega

/-- C3 witness: the amended statement at `max_retries = 4`. -/
theorem request_all_500_returns_response_witness :
    request 4 (fun _ => .resp 500) 0 = .resp 500 4 :=
  request_all_500_returns_response 4 (fun _ => .resp 500) (fun _ => rfl)

/-! ## Claim theorems: the conversion orchestrator -/

/-- C1 (counterexample): on a request splitting into 3 chunks where
chunk 2 (id 1) fails and chunks 1 and 3 succeed, the conversion does
return `success = true`, `failed_chunks = 1` and the audio of chunks 1
and 3 concatenated in order — but `processed_chunks` is 2, not 3: the
failing branch of `process_chunk` sets only `error`, never `processed`. -/
theorem convert_partial_failure_counterexample :
    respSuccess (convert_text_to_speech exOracle exRequest) = some true ∧
    respProgress (convert_text_to_speech exOracle exRequest) =
      some { total_chunks := 3, processed_chunks := 2, failed_chunks := 1 } ∧
    respProgress (convert_text_to_speech exOracle exRequest) ≠
      some { total_chunks := 3, processed_chunks := 3, failed_chunks := 1 } ∧
    respAudio (convert_text_to_speech exOracle exRequest) = some [1, 3] :=
  ⟨by decide, by decide, by decide, by decide⟩

/-- C1 (amended): for every request splitting into 3 non-blank chunks,
if chunk 2 fails (with a non-empty message) while chunks 1 and 3 succeed
(with non-empty audio), the conversion returns `success = true`,
`failed_chunks = 1`, `processed_chunks = 2` (the failed chunk is not
counted as processed), and audio equal to chunk 1's audio followed by
chunk 3's. -/
theorem convert_partial_failure (oracle : Nat → ChunkResult) (req : TTSRequest)
    (t0 t1 t2 : List Char) (a0 a2 : List Nat) (m : String)
    (hprov : req.config.provider = TTSProvider.openai)
    (hsplit : split_text req.text req.config.chunk_size = [t0, t1, t2])
    (h0 : strip t0 ≠ []) (h1 : strip t1 ≠ []) (h2 : strip t2 ≠ [])
    (ho0 : oracle 0 = .success a0) (ha0 : a0 ≠ [])
    (ho1 : oracle 1 = .failure m) (hm : m ≠ "")
    (ho2 : oracle 2 = .success a2) (ha2 : a2 ≠ []) :
    respSuccess (convert_text_to_speech oracle req) = some true ∧
    respProgress (convert_text_to_speech oracle req) =
      some { total_chunks := 3, processed_chunks := 2, failed_chunks := 1 } ∧
    respAudio (convert_text_to_speech oracle req) = some (a0 ++ a2) := by
  have ha0' : a0.isEmpty = false := by simpa [List.isEmpty_iff] using ha0
  have ha2' : a2.isEmpty = false := by simpa [List.isEmpty_iff] using ha2
  have hm' : m.isEmpty = false := by
    cases hb : m.isEmpty with
    | false => rfl
    | true => exact absurd ((String.isEmpty_iff m).mp hb) hm
  unfold convert_text_to_speech
  rw [if_pos hprov, hsplit]
  simp [makeChunks, process_chunk, h0, h1, h2, ho0, ho1, ho2,
    create_progress_tracker, update_progress, errTruthy, audioTruthy,
    concatenate_audio, successfulChunk, ha0', ha2', hm',
    respSuccess, respProgress, respAudio]

/-- C1 witness: the amended statement at the concrete request and
oracle. -/
theorem convert_partial_failure_witness :
    respSuccess (convert_text_to_speech exOracle exRequest) = some true ∧
    respProgress (convert_text_to_speech exOracle exRequest) =
      some { total_chunks := 3, processed_chunks := 2, failed_chunks := 1 } ∧
    respAudio (convert_text_to_speech exOracle exRequest) = some ([1] ++ [3]) :=
  convert_partial_failure exOracle exRequest "aaaa".toList "bbbb".toList "cccc".toList
    [1] [3] "API error: 500" rfl (by decide) (by decide) (by decide) (by decide)
    rfl (by decide) rfl (by decide) rfl (by decide)

/-- C4 (counterexample): an empty-text request is NOT rejected up front
with an invalid-input error. It flows through the whole pipeline: the
empty text becomes one empty chunk, `process_chunk` marks it processed
(skipping synthesis), and the conversion ends with the reassembly error
"No successful audio chunks to concatenate", `success = false`. -/
theorem convert_empty_text_counterexample :
    convert_text_to_speech (fun _ => .failure "x")
        { text := [], config := { provider := .openai, output_format := .mp3,
                                  chunk_size := 4000, max_retries := 3 } } =
      Sum.inl { audio_data := none, format := .mp3,
                chunks := [{ id := 0, text := [], audio_data := none,
                             processed := true, error := none }],
                progress := { total_chunks := 1, processed_chunks := 1,
                              failed_chunks := 0 },
                error := some "No successful audio chunks to concatenate",
                success := false } := by decide

/-- C4 (amended): for every oracle and configuration, an empty-text
request is not rejected before chunk processing; it is segmented into a
single empty chunk, which is skipped (marked processed with no audio and
no I/O), and the conversion returns `success = false` with the
reassembly error — not an invalid-input error. -/
theorem convert_empty_text (oracle : Nat → ChunkResult) (cfg : TTSConfig)
    (hprov : cfg.provider = TTSProvider.openai) :
    convert_text_to_speech oracle { text := [], config := cfg } =
      Sum.inl { audio_data := none, format := cfg.output_format,
                chunks := [{ id := 0, text := [], audio_data := none,
                             processed := true, error := none }],
                progress := { total_chunks := 1, processed_chunks := 1,
                              failed_chunks := 0 },
                error := some "No successful audio chunks to concatenate",
                success := false } := by
  have hmsg : ("No successful audio chunks to concatenate").isEmpty = false := by
    decide
  unfold convert_text_to_speech
  rw [if_pos hprov]
  simp [split_text, strip, makeChunks, process_chunk, create_progress_tracker,
    update_progress, errTruthy, audioTruthy, concatenate_audio, successfulChunk, hmsg]

/-- C4 witness: the amended statement at a concrete configuration. -/
theorem convert_empty_text_witness :
    convert_text_to_speech (fun _ => .success [7])
        { text := [], config := { provider := .openai, output_format := .wav,
                                  chunk_size := 10, max_retries := 3 } } =
      Sum.inl { audio_data := none, format := .wav,
                chunks := [{ id := 0, text := [], audio_data := none,
                             processed := true, error := none }],
                progress := { total_chunks := 1, processed_chunks := 1,
                              failed_chunks := 0 },
                error := some "No successful audio chunks to concatenate",
                success := false } :=
  convert_empty_text (fun _ => .success [7]) _ rfl

/-- C5: if every chunk of a conversion fails — no chunk ends processed
with truthy audio — the conversion returns `success = false`, the
"no successful chunks" error, and no audio. -/
theorem convert_all_chunks_failed (oracle : Nat → ChunkResult) (req : TTSRequest)
    (hprov : req.config.provider = TTSProvider.openai)
    (hall : ∀ c ∈ processedChunks oracle (split_text req.text req.config.chunk_size),
      successfulChunk c = false) :
    respSuccess (convert_text_to_speech oracle req) = some false ∧
    respErrorMsg (convert_text_to_speech oracle req) =
      some "No successful audio chunks to concatenate" ∧
    respAudio (convert_text_to_speech oracle req) = none := by
  rw [processedChunks] at hall
  have hfil : ((makeChunks 0 (split_text req.text req.config.chunk_size)).map
      (process_chunk oracle)).filter successfulChunk = [] :=
    List.filter_eq_nil_iff.mpr (fun c hc => by simp [hall c hc])
  have hcat : concatenate_audio ((makeChunks 0 (split_text req.text req.config.chunk_size)).map
      (process_chunk oracle)) req.config.output_format =
      (none, some "No successful audio chunks to concatenate") := by
    unfold concatenate_audio
    rw [hfil]
  have hmsg : errTruthy (some "No successful audio chunks to concatenate") = true := by
    decide
  unfold convert_text_to_speech
  rw [if_pos hprov]
  simp only [hcat, hmsg, if_true]
  exact ⟨rfl, rfl, rfl⟩

/-- C5 witness: evaluated on a concrete request whose every chunk
fails. -/
theorem convert_all_chunks_failed_witness :
    respSuccess (convert_text_to_speech exFailOracle exRequest) = some false ∧
    respErrorMsg (convert_text_to_speech exFailOracle exRequest) =
      some "No successful audio chunks to concatenate" ∧
    respAudio (convert_text_to_speech exFailOracle exRequest) = none :=
  convert_all_chunks_failed exFailOracle exRequest rfl (by decide)

/-- C8: for every conversion's processed chunk list (ids contiguous from
0 by construction, results injected by an arbitrary oracle), the audio
`concatenate_audio` reassembles is exactly the successful chunks'
payloads joined in ascending ordinal-id order — sorting by id is a
no-op on the reassembly input, whatever the per-chunk outcomes were. -/
theorem concatenate_audio_ordinal (oracle : Nat → ChunkResult)
    (texts : List (List Char)) (fmt : TTSFormat) :
    (concatenate_audio (processedChunks oracle texts) fmt).1 =
      if ((processedChunks oracle texts).filter successfulChunk).isEmpty then none
      else some (joinAudio (sortById
        ((processedChunks oracle texts).filter successfulChunk))) := by
  have hpair : List.Pairwise (fun a b : TTSChunk => a.id < b.id)
      (processedChunks oracle texts) := by
    unfold processedChunks
    rw [List.pairwise_map]
    exact (makeChunks_pairwise 0 texts).imp
      (fun hab => by rw [process_chunk_id, process_chunk_id]; exact hab)
  have hsort := sortById_eq_self _ (hpair.filter successfulChunk)
  rw [hsort, concatenate_audio_fst]

/-- C9: along a conversion's progress fold, after any number `k` of
chunk completions the counters satisfy
`processed_chunks + failed_chunks ≤ total_chunks`; each completion
leaves both counters non-decreasing, bumps each by at most one, and
never changes the total. -/
theorem progress_invariant (oracle : Nat → ChunkResult)
    (texts : List (List Char)) (k : Nat) :
    ((progressAt oracle texts k).processed_chunks +
        (progressAt oracle texts k).failed_chunks ≤
      (progressAt oracle texts k).total_chunks) ∧
    ((progressAt oracle texts k).processed_chunks ≤
      (progressAt oracle texts (k + 1)).processed_chunks) ∧
    ((progressAt oracle texts k).failed_chunks ≤
      (progressAt oracle texts (k + 1)).failed_chunks) ∧
    ((progressAt oracle texts (k + 1)).processed_chunks ≤
      (progressAt oracle texts k).processed_chunks + 1) ∧
    ((progressAt oracle texts (k + 1)).failed_chunks ≤
      (progressAt oracle texts k).failed_chunks + 1) ∧
    ((progressAt oracle texts (k + 1)).total_chunks =
      (progressAt oracle texts k).total_chunks) := by
  constructor
  · unfold progressAt
    have hl : ∀ c ∈ (processedChunks oracle texts).take k,
        ¬(c.processed = true ∧ errTruthy c.error = true) :=
      fun c hc => processedChunks_no_conflict oracle texts c (List.take_subset k _ hc)
    have hsum := foldl_update_sum ((processedChunks oracle texts).take k)
      (create_progress_tracker (makeChunks 0 texts).length) hl
    have htot := foldl_update_total ((processedChunks oracle texts).take k)
      (create_progress_tracker (makeChunks 0 texts).length)
    have hlen : ((processedChunks oracle texts).take k).length ≤
        (makeChunks 0 texts).length := by
      rw [List.length_take]
      have hpc : (processedChunks oracle texts).length = (makeChunks 0 texts).length := by
        unfold processedChunks
        rw [List.length_map]
      omega
    rw [htot]
    simp only [create_progress_tracker] at hsum ⊢
    omega
  · rcases hk : (processedChunks oracle texts)[k]? with _ | c
    · have heq : progressAt oracle texts (k + 1) = progressAt oracle texts k := by
        unfold progressAt
        rw [List.take_succ, hk]
        simp
      rw [heq]
      exact ⟨le_refl _, le_refl _, by omega, by omega, rfl⟩
    · have heq : progressAt oracle texts (k + 1) =
          update_progress (progressAt oracle texts k) c := by
        unfold progressAt
        rw [List.take_succ, hk]
        simp [List.foldl_append]
      rw [heq]
      exact ⟨(update_progress_mono _ c).1, (update_progress_mono _ c).2,
        (update_progress_le _ c).1, (update_progress_le _ c).2,
        update_progress_total _ c⟩
